import Mathlib

/-!
Shallow embedding of the tezedge peer manager
(`src/shell/src/peer_manager.rs`) and proofs about its admission-control,
event-ingestion and DNS-resolution behaviour.

Modelling conventions:
* `HashSet<SocketAddr>` (the candidate pool `potential_peers`) is a
  duplicate-free `List SocketAddr`; `insert` / `remove` / `extend` are
  modelled by `insertAddr` / `removeAddr` / folds of `insertAddr`.
* `HashMap<ActorUri, PeerRef>` (the live-peer registry `peers`) is an
  association list `List (Nat × Nat)` (uri, handle) with unique keys.
* Rust `String`s are `List Char` (`RString`).
* The external DNS call `dns_lookup::getaddrinfo` is a parameter
  (`DnsOracle`); `rand` shuffling is a parameter
  `shuffle : List SocketAddr → List SocketAddr`, assumed to be a
  permutation in the theorems that need it.
* Messages sent by the actor (connect requests, stop requests, the
  Bootstrap re-advertise broadcast, self-sent `CheckPeerCount` triggers)
  are returned as explicit output fields, since sending is fire-and-forget.
-/

/-- Rust `String`, modelled as its character list. -/
abbrev RString := List Char

/-- Model of `std::net::SocketAddr` (IPv4): the four IP octets and the port. -/
structure SocketAddr where
  ip : Nat × Nat × Nat × Nat
  port : Nat
deriving DecidableEq, Repr

/-- `HashSet::insert`: add an address unless it is already present. -/
def insertAddr (pool : List SocketAddr) (a : SocketAddr) : List SocketAddr :=
  if a ∈ pool then pool else pool ++ [a]

/-- `HashSet::remove`: drop an address from the pool. -/
def removeAddr (pool : List SocketAddr) (a : SocketAddr) : List SocketAddr :=
  pool.filter (fun x => x ≠ a)

/-- `Threshold` from `peer_manager.rs`: the low/high connection band. -/
structure Threshold where
  low : Nat
  high : Nat
deriving DecidableEq, Repr

/-- `Threshold::new`: `assert!(low <= high)` then build the pair.  The
`assert!` panic (construction aborting) is modelled as `none`. -/
def Threshold.new (low high : Nat) : Option Threshold :=
  if low ≤ high then some { low := low, high := high } else none

/-- The mutable state of the `PeerManager` actor: threshold, live-peer
registry (`peers`, uri ↦ handle), bootstrap address list and candidate pool
(`potential_peers`).  The actor refs (`network_channel`, `network`) and the
logger carry no state and are dropped. -/
structure PeerManager where
  threshold : Threshold
  peers : List (Nat × Nat)
  bootstrap_addresses : List RString
  potential_peers : List SocketAddr
deriving DecidableEq, Repr

/-- External DNS: models `dns_lookup::getaddrinfo`.  `none` is a lookup
error (`Err(LookupError)`); each entry of the returned list models one
`Result<AddrInfo, _>` record, `none` being a per-record error. -/
def DnsOracle := RString → Option (List (Option SocketAddr))

/-- `resolve_dns_name_to_peer_address`: propagate a lookup error with `?`,
keep only the `Ok` records, and stamp every record with port 9732. -/
def resolve_dns_name_to_peer_address (oracle : DnsOracle) (address : RString) :
    Option (List SocketAddr) :=
  match oracle address with
  | none => none
  | some records =>
      some ((records.filterMap id).map (fun a => { a with port := 9732 }))

/-- One iteration of the `for address in bootstrap_addresses` loop of
`dns_lookup_peers`: on `Ok(peers)` extend the result set, on `Err` log and
skip. -/
def dnsStep (oracle : DnsOracle) (resolved_peers : List SocketAddr)
    (address : RString) : List SocketAddr :=
  match resolve_dns_name_to_peer_address oracle address with
  | some peers => List.foldl insertAddr resolved_peers peers
  | none => resolved_peers

/-- `dns_lookup_peers`: resolve every bootstrap address, collecting the
results into a set (`HashSet`), skipping failed lookups. -/
def dns_lookup_peers (oracle : DnsOracle) (bootstrap_addresses : List RString) :
    List SocketAddr :=
  List.foldl (dnsStep oracle) [] bootstrap_addresses

/-- Output of `PeerManager::discover_peers`: the updated state, the uris of
the peers that were sent the `PeerMessage::Bootstrap` re-advertise request,
and whether the DNS lookup ran. -/
structure DiscoverResult where
  state : PeerManager
  bootstrapBroadcast : List Nat
  dnsInvoked : Bool
deriving DecidableEq, Repr

/-- `PeerManager::discover_peers`: with an empty registry, do the DNS lookup
and insert every resolved address into `potential_peers`; otherwise send
`PeerMessage::Bootstrap` to every connected peer. -/
def PeerManager.discover_peers (oracle : DnsOracle) (s : PeerManager) :
    DiscoverResult :=
  if s.peers.isEmpty then
    let newPool := List.foldl insertAddr s.potential_peers
      (dns_lookup_peers oracle s.bootstrap_addresses)
    { state := { s with potential_peers := newPool },
      bootstrapBroadcast := [],
      dnsInvoked := true }
  else
    { state := s, bootstrapBroadcast := s.peers.map Prod.fst,
      dnsInvoked := false }

/-- The guarded discovery call at the top of the low branch of
`Receive<CheckPeerCount>::receive`:
`if self.potential_peers.len() < self.threshold.low { self.discover_peers(); }`. -/
def discoveryStep (oracle : DnsOracle) (s : PeerManager) : DiscoverResult :=
  if s.potential_peers.length < s.threshold.low then
    s.discover_peers oracle
  else
    { state := s, bootstrapBroadcast := [], dnsInvoked := false }

/-- Everything one `CheckPeerCount` trigger does: the new state, the
addresses sent a `ConnectToPeer` request, the uris of peers the system was
asked to stop, the uris sent the Bootstrap broadcast, and whether DNS ran. -/
structure TriggerResult where
  state : PeerManager
  connects : List SocketAddr
  stops : List Nat
  bootstrapBroadcast : List Nat
  dnsInvoked : Bool
deriving DecidableEq, Repr

/-- `Receive<CheckPeerCount>::receive` for `PeerManager`.  Below `low`:
maybe discover, then shuffle the pool, drain the first
`min(low - |peers|, |pool|)` addresses, removing each from the pool and
issuing a connect request for it.  Above `high`: ask the system to stop
`|peers| - high` peers (registry untouched).  Otherwise: nothing. -/
def receiveCheckPeerCount (oracle : DnsOracle)
    (shuffle : List SocketAddr → List SocketAddr) (s : PeerManager) :
    TriggerResult :=
  if s.peers.length < s.threshold.low then
    let d := discoveryStep oracle s
    let num_required_peers := d.state.threshold.low - d.state.peers.length
    let addresses_to_connect := shuffle d.state.potential_peers
    let drained := addresses_to_connect.take
      (min num_required_peers addresses_to_connect.length)
    let newPool := List.foldl removeAddr d.state.potential_peers drained
    { state := { d.state with potential_peers := newPool },
      connects := drained,
      stops := [],
      bootstrapBroadcast := d.bootstrapBroadcast,
      dnsInvoked := d.dnsInvoked }
  else if s.peers.length > s.threshold.high then
    { state := s, connects := [],
      stops := (s.peers.take (s.peers.length - s.threshold.high)).map Prod.fst,
      bootstrapBroadcast := [], dnsInvoked := false }
  else
    { state := s, connects := [], stops := [], bootstrapBroadcast := [],
      dnsInvoked := false }

/-- `Receive<SystemEvent>::receive`: on `ActorTerminated`, remove the actor
uri from the registry; if something was actually removed, send one
`CheckPeerCount` to self.  The second component counts the `CheckPeerCount`
messages sent. -/
def receiveSystemEvent (s : PeerManager) (terminatedUri : Nat) :
    PeerManager × Nat :=
  match List.lookup terminatedUri s.peers with
  | some _ =>
      ({ s with peers := s.peers.filter (fun p => p.1 ≠ terminatedUri) }, 1)
  | none => (s, 0)

/-- `HashMap::insert` on the registry: replace the handle if the uri is
present, otherwise append the new entry. -/
def insertPeer (peers : List (Nat × Nat)) (uri handle : Nat) :
    List (Nat × Nat) :=
  if (List.lookup uri peers).isSome then
    peers.map (fun p => if p.1 = uri then (uri, handle) else p)
  else
    peers ++ [(uri, handle)]

/-- Parse a decimal number from characters: nonempty, digits only. -/
def parseNatDigits (cs : List Char) : Option Nat :=
  if cs.isEmpty then none
  else if cs.all (fun c => c.isDigit) then
    some (cs.foldl (fun n c => n * 10 + (c.toNat - 48)) 0)
  else none

/-- Parse one IPv4 octet: decimal, value ≤ 255, no leading zero. -/
def parseOctet (cs : List Char) : Option Nat :=
  match parseNatDigits cs with
  | some n =>
      if n ≤ 255 ∧ (cs.length = 1 ∨ cs.headD '0' ≠ '0') then some n else none
  | none => none

/-- Parse a port: decimal, value ≤ 65535. -/
def parsePort (cs : List Char) : Option Nat :=
  match parseNatDigits cs with
  | some n => if n ≤ 65535 then some n else none
  | none => none

/-- Split a character list at every occurrence of a separator. -/
def splitOnChar (sep : Char) : List Char → List (List Char)
  | [] => [[]]
  | c :: cs =>
      let rest := splitOnChar sep cs
      if c = sep then [] :: rest
      else
        match rest with
        | [] => [[c]]
        | r :: rs => (c :: r) :: rs

/-- Models `str::parse::<SocketAddr>()` from the Rust standard library
(external to this repository) on IPv4 input of the form `a.b.c.d:port`;
anything else parses to `none`. -/
def parseSocketAddr (s : RString) : Option SocketAddr :=
  match splitOnChar ':' s with
  | [ipPart, portPart] =>
      match splitOnChar '.' ipPart with
      | [a, b, c, d] =>
          match parseOctet a, parseOctet b, parseOctet c, parseOctet d,
                parsePort portPart with
          | some x1, some x2, some x3, some x4, some p =>
              some { ip := (x1, x2, x3, x4), port := p }
          | _, _, _, _, _ => none
      | _ => none
  | _ => none

/-- The peer messages `Receive<NetworkChannelMsg>::receive` inspects:
`Advertise` carries the gossiped address strings (`message.id()`), every
other variant falls into the catch-all. -/
inductive PeerMessage where
  | Advertise (ids : List RString)
  | Bootstrap
  | Other
deriving DecidableEq, Repr

/-- The network-channel messages the manager receives. -/
inductive NetworkChannelMsg where
  | PeerCreated (uri handle : Nat)
  | PeerMessageReceived (messages : List PeerMessage)
  | Other
deriving DecidableEq, Repr

/-- `Receive<NetworkChannelMsg>::receive`: `PeerCreated` inserts the peer
into the registry; `PeerMessageReceived` scans the batch, and for each
`Advertise` message parses every address string (`filter_map(parse.ok)` —
failures silently dropped), extends `potential_peers` with the parsed
addresses and sends one `CheckPeerCount` to self; everything else is
ignored.  The second component counts the `CheckPeerCount` messages sent. -/
def receiveNetworkChannelMsg (s : PeerManager) (msg : NetworkChannelMsg) :
    PeerManager × Nat :=
  match msg with
  | .PeerCreated uri handle =>
      ({ s with peers := insertPeer s.peers uri handle }, 0)
  | .PeerMessageReceived messages =>
      messages.foldl
        (fun acc message =>
          match message with
          | .Advertise ids =>
              let sock_addresses := ids.filterMap parseSocketAddr
              ({ acc.1 with potential_peers :=
                  List.foldl insertAddr acc.1.potential_peers sock_addresses },
               acc.2 + 1)
          | _ => acc)
        (s, 0)
  | .Other => (s, 0)

/-- The pool/registry disjointness claimed for the Candidate Pool, stated
relative to an assignment of a network address to each connected peer uri:
the code's registry stores actor uris and opaque handles, no socket
addresses, so the connection between a registry entry and "its" address has
to be supplied from outside. -/
abbrev poolRegistryDisjoint (addrOfPeer : Nat → SocketAddr)
    (s : PeerManager) : Prop :=
  ∀ p ∈ s.peers, addrOfPeer p.1 ∉ s.potential_peers

/-! Concrete instances used by witnesses and counterexamples. -/

/-- A DNS oracle for which every lookup fails. -/
def emptyOracle : DnsOracle := fun _ => none

/-- `10.0.0.1:9732`. -/
def addrA : SocketAddr := { ip := (10, 0, 0, 1), port := 9732 }

/-- `10.0.0.2:9732`. -/
def addrB : SocketAddr := { ip := (10, 0, 0, 2), port := 9732 }

/-- A DNS oracle: `seed.example` resolves to two records for host 1.2.3.4
(ports 80 and 81) with one failed record in between; every other name fails. -/
def seedOracle : DnsOracle := fun addr =>
  if addr = "seed.example".data then
    some [some { ip := (1, 2, 3, 4), port := 80 }, none,
          some { ip := (1, 2, 3, 4), port := 81 }]
  else none

/-- One connected peer (uri 0), pool already holding low = 2 addresses. -/
def c1State : PeerManager :=
  { threshold := { low := 2, high := 5 }, peers := [(0, 0)],
    bootstrap_addresses := [], potential_peers := [addrA, addrB] }

/-- Empty registry, empty pool, one bootstrap name, low = 3. -/
def c2State : PeerManager :=
  { threshold := { low := 3, high := 10 }, peers := [],
    bootstrap_addresses := ["seed.example".data], potential_peers := [] }

/-- Twelve connected peers against high = 10. -/
def c3State : PeerManager :=
  { threshold := { low := 3, high := 10 },
    peers := (List.range 12).map (fun i => (i, i)),
    bootstrap_addresses := [], potential_peers := [] }

/-- Two connected peers, for the termination-event witness. -/
def c4State : PeerManager :=
  { threshold := { low := 1, high := 5 }, peers := [(1, 10), (2, 20)],
    bootstrap_addresses := [], potential_peers := [] }

/-- Empty registry and pool, for the gossip example of the spec. -/
def gossipState : PeerManager :=
  { threshold := { low := 3, high := 10 }, peers := [],
    bootstrap_addresses := [], potential_peers := [] }

/-- The gossip batch from the spec: two valid addresses around a malformed
string. -/
def gossipBatch : List RString :=
  ["10.0.0.1:9732".data, "not-an-address".data, "10.0.0.2:9732".data]

/-- Every connected peer sits at address `10.0.0.1:9732`. -/
def c6AddrOf : Nat → SocketAddr := fun _ => addrA

/-- One connected peer (uri 0), empty pool. -/
def c6State : PeerManager :=
  { threshold := { low := 2, high := 5 }, peers := [(0, 0)],
    bootstrap_addresses := [], potential_peers := [] }

/-- Two connected peers inside the band (1, 3). -/
def bandState : PeerManager :=
  { threshold := { low := 1, high := 3 }, peers := [(1, 11), (2, 12)],
    bootstrap_addresses := [], potential_peers := [] }

/-- One connected peer below low = 2, pool already holding three
addresses. -/
def c10State : PeerManager :=
  { threshold := { low := 2, high := 5 }, peers := [(7, 70)],
    bootstrap_addresses := ["seed.example".data],
    potential_peers := [addrA, addrB, { ip := (10, 0, 0, 3), port := 9732 }] }

/-! Basic facts about the pool operations. -/

theorem mem_insertAddr {pool : List SocketAddr} {a b : SocketAddr} :
    b ∈ insertAddr pool a ↔ b ∈ pool ∨ b = a := by
  unfold insertAddr
  by_cases h : a ∈ pool
  · rw [if_pos h]
    constructor
    · exact Or.inl
    · rintro (hb | rfl)
      · exact hb
      · exact h
  · rw [if_neg h, List.mem_append, List.mem_singleton]

theorem nodup_insertAddr {pool : List SocketAddr} {a : SocketAddr}
    (h : pool.Nodup) : (insertAddr pool a).Nodup := by
  unfold insertAddr
  by_cases ha : a ∈ pool
  · rwa [if_pos ha]
  · rw [if_neg ha]
    exact h.append (List.nodup_singleton a) (List.disjoint_singleton.mpr ha)

theorem mem_foldl_insertAddr {l pool : List SocketAddr} {b : SocketAddr} :
    b ∈ List.foldl insertAddr pool l ↔ b ∈ pool ∨ b ∈ l := by
  induction l generalizing pool with
  | nil => simp
  | cons a t ih =>
      simp only [List.foldl_cons, ih, mem_insertAddr, List.mem_cons]
      tauto

theorem nodup_foldl_insertAddr {l pool : List SocketAddr} (h : pool.Nodup) :
    (List.foldl insertAddr pool l).Nodup := by
  induction l generalizing pool with
  | nil => exact h
  | cons a t ih => exact ih (nodup_insertAddr h)

theorem mem_removeAddr {pool : List SocketAddr} {a b : SocketAddr} :
    b ∈ removeAddr pool a ↔ b ∈ pool ∧ b ≠ a := by
  unfold removeAddr
  simp [List.mem_filter]

theorem mem_foldl_removeAddr {l pool : List SocketAddr} {b : SocketAddr} :
    b ∈ List.foldl removeAddr pool l ↔ b ∈ pool ∧ b ∉ l := by
  induction l generalizing pool with
  | nil => simp
  | cons a t ih =>
      simp only [List.foldl_cons, ih, mem_removeAddr, List.mem_cons]
      tauto

/-! Facts about the discovery step. -/

theorem discoveryStep_state_peers (oracle : DnsOracle) (s : PeerManager) :
    (discoveryStep oracle s).state.peers = s.peers := by
  unfold discoveryStep PeerManager.discover_peers
  split
  · split <;> rfl
  · rfl

theorem discoveryStep_state_threshold (oracle : DnsOracle) (s : PeerManager) :
    (discoveryStep oracle s).state.threshold = s.threshold := by
  unfold discoveryStep PeerManager.discover_peers
  split
  · split <;> rfl
  · rfl

theorem discoveryStep_pool_nodup (oracle : DnsOracle) (s : PeerManager)
    (h : s.potential_peers.Nodup) :
    (discoveryStep oracle s).state.potential_peers.Nodup := by
  unfold discoveryStep PeerManager.discover_peers
  split
  · split
    · exact nodup_foldl_insertAddr h
    · exact h
  · exact h

theorem discoveryStep_dnsInvoked_iff (oracle : DnsOracle) (s : PeerManager) :
    (discoveryStep oracle s).dnsInvoked = true ↔
      s.potential_peers.length < s.threshold.low ∧ s.peers = [] := by
  unfold discoveryStep PeerManager.discover_peers
  by_cases h : s.potential_peers.length < s.threshold.low
  · rw [if_pos h]
    by_cases he : s.peers.isEmpty
    · rw [if_pos he]
      simp only [List.isEmpty_iff] at he
      simp [h, he]
    · rw [if_neg he]
      simp only [List.isEmpty_iff] at he
      simp [he]
  · rw [if_neg h]
    simp [h]

theorem discoveryStep_broadcast_eq (oracle : DnsOracle) (s : PeerManager) :
    (discoveryStep oracle s).bootstrapBroadcast =
      if s.potential_peers.length < s.threshold.low ∧ s.peers ≠ []
      then s.peers.map Prod.fst else [] := by
  unfold discoveryStep PeerManager.discover_peers
  by_cases h : s.potential_peers.length < s.threshold.low
  · rw [if_pos h]
    by_cases he : s.peers.isEmpty
    · rw [if_pos he]
      simp only [List.isEmpty_iff] at he
      simp [he]
    · rw [if_neg he]
      simp only [List.isEmpty_iff] at he
      simp [h, he]
  · rw [if_neg h]
    simp [h]

theorem discoveryStep_of_ge (oracle : DnsOracle) (s : PeerManager)
    (h : s.threshold.low ≤ s.potential_peers.length) :
    discoveryStep oracle s =
      { state := s, bootstrapBroadcast := [], dnsInvoked := false } := by
  unfold discoveryStep
  rw [if_neg (by omega)]

/-- The low branch of `Receive<CheckPeerCount>::receive`, written through
`discoveryStep`. -/
theorem receiveCheckPeerCount_low (oracle : DnsOracle)
    (shuffle : List SocketAddr → List SocketAddr) (s : PeerManager)
    (h : s.peers.length < s.threshold.low) :
    receiveCheckPeerCount oracle shuffle s =
      (let d := discoveryStep oracle s
       let drained := (shuffle d.state.potential_peers).take
         (min (d.state.threshold.low - d.state.peers.length)
              (shuffle d.state.potential_peers).length)
       let newPool := List.foldl removeAddr d.state.potential_peers drained
       { state := { d.state with potential_peers := newPool },
         connects := drained, stops := [],
         bootstrapBroadcast := d.bootstrapBroadcast,
         dnsInvoked := d.dnsInvoked }) := by
  unfold receiveCheckPeerCount
  rw [if_pos h]

/-! Facts about the DNS lookup loop. -/

theorem dnsStep_nodup {oracle : DnsOracle} {acc : List SocketAddr}
    {address : RString} (h : acc.Nodup) : (dnsStep oracle acc address).Nodup := by
  unfold dnsStep
  cases hres : resolve_dns_name_to_peer_address oracle address with
  | some peers =>
      simp only [hres]
      exact nodup_foldl_insertAddr h
  | none =>
      simp only [hres]
      exact h

theorem dnsStep_port {oracle : DnsOracle} {acc : List SocketAddr}
    {address : RString} (h : ∀ a ∈ acc, a.port = 9732) :
    ∀ a ∈ dnsStep oracle acc address, a.port = 9732 := by
  unfold dnsStep
  cases hres : resolve_dns_name_to_peer_address oracle address with
  | some peers =>
      simp only [hres]
      intro a ha
      rcases mem_foldl_insertAddr.mp ha with h1 | h2
      · exact h a h1
      · unfold resolve_dns_name_to_peer_address at hres
        cases horacle : oracle address with
        | none => rw [horacle] at hres; exact absurd hres (by simp)
        | some records =>
            rw [horacle] at hres
            simp only [Option.some.injEq] at hres
            rw [← hres] at h2
            rcases List.mem_map.mp h2 with ⟨b, _, hba⟩
            rw [← hba]
  | none =>
      simp only [hres]
      exact h

theorem foldl_dnsStep_nodup (oracle : DnsOracle) :
    ∀ (bs : List RString) (acc : List SocketAddr), acc.Nodup →
      (List.foldl (dnsStep oracle) acc bs).Nodup := by
  intro bs
  induction bs with
  | nil => exact fun acc h => h
  | cons b t ih => exact fun acc h => ih _ (dnsStep_nodup h)

theorem foldl_dnsStep_port (oracle : DnsOracle) :
    ∀ (bs : List RString) (acc : List SocketAddr),
      (∀ a ∈ acc, a.port = 9732) →
      ∀ a ∈ List.foldl (dnsStep oracle) acc bs, a.port = 9732 := by
  intro bs
  induction bs with
  | nil => exact fun acc h => h
  | cons b t ih => exact fun acc h => ih _ (dnsStep_port h)

theorem dnsStep_of_failure {oracle : DnsOracle} {address : RString}
    (h : oracle address = none) (acc : List SocketAddr) :
    dnsStep oracle acc address = acc := by
  unfold dnsStep resolve_dns_name_to_peer_address
  rw [h]

theorem foldl_dnsStep_offline {oracle : DnsOracle} :
    ∀ {bs : List RString}, (∀ addr ∈ bs, oracle addr = none) →
      ∀ acc, List.foldl (dnsStep oracle) acc bs = acc := by
  intro bs
  induction bs with
  | nil => exact fun _ _ => rfl
  | cons b t ih =>
      intro h acc
      rw [List.foldl_cons, dnsStep_of_failure (h b (List.mem_cons_self b t)) acc]
      exact ih (fun a ha => h a (List.mem_cons_of_mem b ha)) acc

/-! Claim theorems. -/

/-- C7: constructing a `Threshold` with `low > high` fails (the `assert!`
aborts, modelled as `none`); with `low ≤ high` — including `low = high` and
`low = 0` — it succeeds and holds exactly the given bounds. -/
theorem C7_threshold_construction (low high : Nat) :
    (high < low → Threshold.new low high = none) ∧
    (low ≤ high → Threshold.new low high = some { low := low, high := high }) := by
  constructor
  · intro h
    unfold Threshold.new
    rw [if_neg (by omega)]
  · intro h
    unfold Threshold.new
    rw [if_pos h]

/-- C7 witness: construction fails at (3, 2); it succeeds at (2, 2)
(low = high) and at (0, 5) (low = 0), holding exactly those bounds. -/
theorem C7_threshold_construction_witness :
    ((2:Nat) < 3 ∧ Threshold.new 3 2 = none) ∧
    ((2:Nat) ≤ 2 ∧ Threshold.new 2 2 = some { low := 2, high := 2 }) ∧
    ((0:Nat) ≤ 5 ∧ Threshold.new 0 5 = some { low := 0, high := 5 }) :=
  ⟨⟨by decide, (C7_threshold_construction 3 2).1 (by decide)⟩,
   ⟨by decide, (C7_threshold_construction 2 2).2 (by decide)⟩,
   ⟨by decide, (C7_threshold_construction 0 5).2 (by decide)⟩⟩

/-- C9: for every registry size in the band `low ≤ |registry| ≤ high`, a
`CheckPeerCount` trigger issues no connect and no stop requests and leaves
the whole state (registry and Candidate Pool) unchanged. -/
theorem C9_noop_band (oracle : DnsOracle)
    (shuffle : List SocketAddr → List SocketAddr) (s : PeerManager)
    (h1 : s.threshold.low ≤ s.peers.length)
    (h2 : s.peers.length ≤ s.threshold.high) :
    receiveCheckPeerCount oracle shuffle s =
      { state := s, connects := [], stops := [], bootstrapBroadcast := [],
        dnsInvoked := false } := by
  unfold receiveCheckPeerCount
  rw [if_neg (by omega), if_neg (by omega)]

/-- C9 witness: two peers inside the band (1, 3): the trigger does nothing. -/
theorem C9_noop_band_witness :
    bandState.threshold.low ≤ bandState.peers.length ∧
    bandState.peers.length ≤ bandState.threshold.high ∧
    receiveCheckPeerCount emptyOracle id bandState =
      { state := bandState, connects := [], stops := [],
        bootstrapBroadcast := [], dnsInvoked := false } :=
  ⟨by decide, by decide,
   C9_noop_band emptyOracle id bandState (by decide) (by decide)⟩

/-- C3: with `|registry| > high` (and a well-formed threshold
`low ≤ high`), a trigger issues exactly `|registry| - high` stop requests,
no connect requests, and leaves the whole state — registry included —
unchanged; entries only leave the registry when a later termination event
is ingested. -/
theorem C3_over_target_eviction (oracle : DnsOracle)
    (shuffle : List SocketAddr → List SocketAddr) (s : PeerManager)
    (hwf : s.threshold.low ≤ s.threshold.high)
    (h : s.threshold.high < s.peers.length) :
    (receiveCheckPeerCount oracle shuffle s).stops.length =
      s.peers.length - s.threshold.high ∧
    (receiveCheckPeerCount oracle shuffle s).state = s ∧
    (receiveCheckPeerCount oracle shuffle s).connects = [] := by
  unfold receiveCheckPeerCount
  rw [if_neg (by omega), if_pos (by omega)]
  refine ⟨?_, rfl, rfl⟩
  rw [List.length_map, List.length_take]
  omega

/-- C3 witness: 12 peers against high = 10: exactly 2 stop requests,
state untouched. -/
theorem C3_over_target_eviction_witness :
    c3State.threshold.low ≤ c3State.threshold.high ∧
    c3State.threshold.high < c3State.peers.length ∧
    (receiveCheckPeerCount emptyOracle id c3State).stops.length =
      c3State.peers.length - c3State.threshold.high ∧
    (receiveCheckPeerCount emptyOracle id c3State).state = c3State ∧
    (receiveCheckPeerCount emptyOracle id c3State).stops.length = 2 :=
  ⟨by decide, by decide,
   (C3_over_target_eviction emptyOracle id c3State (by decide) (by decide)).1,
   (C3_over_target_eviction emptyOracle id c3State (by decide) (by decide)).2.1,
   by decide⟩

/-- C8: `dns_lookup_peers` resolves bootstrap endpoints independently: the
result is a deduplicated set in which every address carries port 9732; a
failing endpoint is dropped without aborting the batch (the list with the
failing endpoint gives the same result as the list without it); if every
endpoint fails, the result is empty — not an error, since the function is
total. -/
theorem C8_address_resolver (oracle : DnsOracle) (bootstrap : List RString) :
    (dns_lookup_peers oracle bootstrap).Nodup ∧
    (∀ a ∈ dns_lookup_peers oracle bootstrap, a.port = 9732) ∧
    (∀ (xs ys : List RString) (addr : RString), oracle addr = none →
        dns_lookup_peers oracle (xs ++ addr :: ys) =
          dns_lookup_peers oracle (xs ++ ys)) ∧
    ((∀ addr ∈ bootstrap, oracle addr = none) →
        dns_lookup_peers oracle bootstrap = []) := by
  refine ⟨foldl_dnsStep_nodup oracle bootstrap [] List.nodup_nil,
          foldl_dnsStep_port oracle bootstrap [] (by simp),
          ?_, fun h => foldl_dnsStep_offline h []⟩
  intro xs ys addr h
  unfold dns_lookup_peers
  rw [List.foldl_append, List.foldl_append, List.foldl_cons,
      dnsStep_of_failure h]

/-- C8 witness: `bad.example` fails, `seed.example` resolves to two records
of host 1.2.3.4 with DNS-implied ports 80 and 81; the result is the single
address 1.2.3.4:9732 — deduplicated, port forced to 9732, the failing
endpoint skipped; the batch of only failing endpoints gives the empty set. -/
theorem C8_address_resolver_witness :
    (dns_lookup_peers seedOracle ["bad.example".data, "seed.example".data]).Nodup ∧
    (∀ a ∈ dns_lookup_peers seedOracle ["bad.example".data, "seed.example".data],
        a.port = 9732) ∧
    (seedOracle "bad.example".data = none ∧
      dns_lookup_peers seedOracle ([] ++ "bad.example".data :: ["seed.example".data]) =
        dns_lookup_peers seedOracle ([] ++ ["seed.example".data])) ∧
    ((∀ addr ∈ ["bad.example".data], seedOracle addr = none) ∧
      dns_lookup_peers seedOracle ["bad.example".data] = []) ∧
    dns_lookup_peers seedOracle ["bad.example".data, "seed.example".data] =
      [{ ip := (1, 2, 3, 4), port := 9732 }] :=
  ⟨(C8_address_resolver seedOracle ["bad.example".data, "seed.example".data]).1,
   (C8_address_resolver seedOracle ["bad.example".data, "seed.example".data]).2.1,
   ⟨by decide,
    (C8_address_resolver seedOracle ["bad.example".data, "seed.example".data]).2.2.1
      [] ["seed.example".data] "bad.example".data (by decide)⟩,
   ⟨by decide,
    (C8_address_resolver seedOracle ["bad.example".data]).2.2.2 (by decide)⟩,
   by decide⟩

/-- C5: ingesting a gossip/advertise batch never fails (the handler is a
total function); an address is in the resulting pool exactly when it was
already there or is the successful parse of a batch entry — unparseable
entries are silently dropped by the filter-map; on the spec's concrete
batch, from an empty pool, exactly 2 candidates result, the malformed
string parses to nothing, and one admission re-check is triggered. -/
theorem C5_malformed_gossip_tolerance :
    (∀ (s : PeerManager) (ids : List RString) (a : SocketAddr),
        a ∈ (receiveNetworkChannelMsg s
              (.PeerMessageReceived [.Advertise ids])).1.potential_peers ↔
          a ∈ s.potential_peers ∨ a ∈ ids.filterMap parseSocketAddr) ∧
    parseSocketAddr "not-an-address".data = none ∧
    (receiveNetworkChannelMsg gossipState
        (.PeerMessageReceived [.Advertise gossipBatch])).1.potential_peers.length = 2 ∧
    (receiveNetworkChannelMsg gossipState
        (.PeerMessageReceived [.Advertise gossipBatch])).2 = 1 :=
  ⟨fun _ _ _ => mem_foldl_insertAddr, by decide, by decide, by decide⟩

/-- Removing a key from a unique-key association list (the `HashMap`
registry) by filtering drops exactly one entry. -/
theorem filter_key_length {l : List (Nat × Nat)} {u : Nat}
    (hnd : (l.map Prod.fst).Nodup) (h : (List.lookup u l).isSome) :
    (l.filter (fun p => p.1 ≠ u)).length + 1 = l.length := by
  induction l with
  | nil => simp [List.lookup] at h
  | cons kv t ih =>
      obtain ⟨k, v⟩ := kv
      rw [List.map_cons, List.nodup_cons] at hnd
      by_cases hk : u = k
      · subst hk
        simp [List.filter_cons]
        intro a b hab hau
        rw [hau] at hab
        have hmem : (u, b).1 ∈ List.map Prod.fst t :=
          List.mem_map_of_mem Prod.fst hab
        exact hnd.1 hmem
      · have ht : (List.lookup u t).isSome := by
          rw [List.lookup] at h
          rw [show (u == k) = false from beq_eq_false_iff_ne.mpr hk] at h
          exact h
        have := ih hnd.2 ht
        rw [List.filter_cons_of_pos
              (by rw [decide_eq_true_eq]; exact fun hx => hk hx.symm)]
        simp only [List.length_cons]
        omega

/-- C4: ingesting a peer-terminated event for a uri absent from the registry
is a no-op — state unchanged and no admission re-check; for a present uri it
removes exactly that entry (the pool and thresholds untouched, the length
drops by one) and sends exactly one out-of-cycle `CheckPeerCount`. -/
theorem C4_termination_recheck (s : PeerManager) (uri : Nat)
    (hnd : (s.peers.map Prod.fst).Nodup) :
    (List.lookup uri s.peers = none → receiveSystemEvent s uri = (s, 0)) ∧
    ((List.lookup uri s.peers).isSome →
      (receiveSystemEvent s uri).2 = 1 ∧
      (receiveSystemEvent s uri).1.potential_peers = s.potential_peers ∧
      (receiveSystemEvent s uri).1.threshold = s.threshold ∧
      (∀ p, p ∈ (receiveSystemEvent s uri).1.peers ↔
          p ∈ s.peers ∧ p.1 ≠ uri) ∧
      (receiveSystemEvent s uri).1.peers.length + 1 = s.peers.length) := by
  constructor
  · intro h
    unfold receiveSystemEvent
    rw [h]
  · intro h
    rcases Option.isSome_iff_exists.mp h with ⟨v, hv⟩
    unfold receiveSystemEvent
    rw [hv]
    refine ⟨rfl, rfl, rfl, fun p => ?_, ?_⟩
    · simp [List.mem_filter]
    · exact filter_key_length hnd h

/-- C4 witness: with registry entries for uris 1 and 2, terminating absent
uri 5 is a no-op with zero re-checks; terminating present uri 1 removes it
(length 2 becomes 1) and sends exactly one re-check. -/
theorem C4_termination_recheck_witness :
    ((c4State.peers.map Prod.fst).Nodup ∧
     List.lookup 5 c4State.peers = none ∧
     receiveSystemEvent c4State 5 = (c4State, 0)) ∧
    ((List.lookup 1 c4State.peers).isSome ∧
     (receiveSystemEvent c4State 1).2 = 1 ∧
     (receiveSystemEvent c4State 1).1.peers.length + 1 = c4State.peers.length) :=
  ⟨⟨by decide, by decide,
    (C4_termination_recheck c4State 5 (by decide)).1 (by decide)⟩,
   ⟨by decide,
    ((C4_termination_recheck c4State 1 (by decide)).2 (by decide)).1,
    ((C4_termination_recheck c4State 1 (by decide)).2 (by decide)).2.2.2.2⟩⟩

/-- C2: on a trigger with `|registry| < low`, with the Candidate Pool
measured after the discovery step (per the spec, "after resolution") and the
shuffle being a permutation, the controller issues exactly
`min(low - |registry|, |pool|)` connect requests, all to distinct addresses
drawn from the pool, and the new pool holds exactly the non-dialed
addresses — dialed ones removed, the rest untouched. -/
theorem C2_under_target_dialing (oracle : DnsOracle)
    (shuffle : List SocketAddr → List SocketAddr) (s : PeerManager)
    (hlow : s.peers.length < s.threshold.low)
    (hnd : s.potential_peers.Nodup)
    (hperm : (shuffle (discoveryStep oracle s).state.potential_peers).Perm
               (discoveryStep oracle s).state.potential_peers) :
    (receiveCheckPeerCount oracle shuffle s).connects.length =
      min (s.threshold.low - s.peers.length)
          (discoveryStep oracle s).state.potential_peers.length ∧
    (receiveCheckPeerCount oracle shuffle s).connects.Nodup ∧
    (∀ a ∈ (receiveCheckPeerCount oracle shuffle s).connects,
        a ∈ (discoveryStep oracle s).state.potential_peers) ∧
    (∀ a, a ∈ (receiveCheckPeerCount oracle shuffle s).state.potential_peers ↔
        a ∈ (discoveryStep oracle s).state.potential_peers ∧
        a ∉ (receiveCheckPeerCount oracle shuffle s).connects) := by
  have hP : (discoveryStep oracle s).state.potential_peers.Nodup :=
    discoveryStep_pool_nodup oracle s hnd
  have hlen : (shuffle (discoveryStep oracle s).state.potential_peers).length =
      (discoveryStep oracle s).state.potential_peers.length := hperm.length_eq
  have hL : (shuffle (discoveryStep oracle s).state.potential_peers).Nodup :=
    hperm.nodup_iff.mpr hP
  simp only [receiveCheckPeerCount_low oracle shuffle s hlow,
    discoveryStep_state_threshold, discoveryStep_state_peers]
  refine ⟨?_, ?_, ?_, fun a => mem_foldl_removeAddr⟩
  · rw [List.length_take, hlen]
    omega
  · exact List.Nodup.sublist (List.take_sublist _ _) hL
  · intro a ha
    exact hperm.mem_iff.mp (List.take_subset _ _ ha)

/-- C10: on a trigger with `|registry| < low`, the discovery step (DNS when
the registry is empty, the re-advertise broadcast otherwise) happens iff the
Candidate Pool holds fewer than `low` addresses; with at least `low`
addresses in the pool, neither DNS nor a broadcast occurs and the dial
selection draws straight from the existing pool. -/
theorem C10_discovery_iff_pool_below_low (oracle : DnsOracle)
    (shuffle : List SocketAddr → List SocketAddr) (s : PeerManager)
    (hlow : s.peers.length < s.threshold.low)
    (hperm : (shuffle (discoveryStep oracle s).state.potential_peers).Perm
               (discoveryStep oracle s).state.potential_peers) :
    (((receiveCheckPeerCount oracle shuffle s).dnsInvoked = true ∨
        (receiveCheckPeerCount oracle shuffle s).bootstrapBroadcast ≠ []) ↔
      s.potential_peers.length < s.threshold.low) ∧
    (s.threshold.low ≤ s.potential_peers.length →
      (receiveCheckPeerCount oracle shuffle s).dnsInvoked = false ∧
      (receiveCheckPeerCount oracle shuffle s).bootstrapBroadcast = [] ∧
      (∀ a ∈ (receiveCheckPeerCount oracle shuffle s).connects,
          a ∈ s.potential_peers) ∧
      (receiveCheckPeerCount oracle shuffle s).connects.length =
        min (s.threshold.low - s.peers.length) s.potential_peers.length) := by
  simp only [receiveCheckPeerCount_low oracle shuffle s hlow,
    discoveryStep_state_threshold, discoveryStep_state_peers]
  constructor
  · rw [discoveryStep_dnsInvoked_iff, discoveryStep_broadcast_eq]
    by_cases hpool : s.potential_peers.length < s.threshold.low
    · by_cases hpe : s.peers = []
      · simp [hpool, hpe]
      · simp [hpool, hpe]
    · simp [hpool]
  · intro hge
    have hds : discoveryStep oracle s =
        { state := s, bootstrapBroadcast := [], dnsInvoked := false } :=
      discoveryStep_of_ge oracle s hge
    simp only [hds] at hperm ⊢
    refine ⟨trivial, trivial, ?_, ?_⟩
    · intro a ha
      exact hperm.mem_iff.mp (List.take_subset _ _ ha)
    · rw [List.length_take, hperm.length_eq]
      omega

/-- C2 witness: empty registry, low = 3, `seed.example` resolving to one
address: exactly min(3, 1) = 1 connect request is issued. -/
theorem C2_under_target_dialing_witness :
    c2State.peers.length < c2State.threshold.low ∧
    c2State.potential_peers.Nodup ∧
    (id (discoveryStep seedOracle c2State).state.potential_peers).Perm
      (discoveryStep seedOracle c2State).state.potential_peers ∧
    (receiveCheckPeerCount seedOracle id c2State).connects.length =
      min (c2State.threshold.low - c2State.peers.length)
          (discoveryStep seedOracle c2State).state.potential_peers.length ∧
    (receiveCheckPeerCount seedOracle id c2State).connects.length = 1 :=
  ⟨by decide, by decide, by decide,
   (C2_under_target_dialing seedOracle id c2State
      (by decide) (by decide) (by decide)).1,
   by decide⟩

/-- C10 witness: one peer below low = 2 but a pool of three addresses
(≥ low): no DNS, no broadcast, and min(2 - 1, 3) = 1 dial straight from the
pool. -/
theorem C10_discovery_iff_pool_below_low_witness :
    c10State.peers.length < c10State.threshold.low ∧
    c10State.threshold.low ≤ c10State.potential_peers.length ∧
    (((receiveCheckPeerCount seedOracle id c10State).dnsInvoked = true ∨
        (receiveCheckPeerCount seedOracle id c10State).bootstrapBroadcast ≠ []) ↔
      c10State.potential_peers.length < c10State.threshold.low) ∧
    (receiveCheckPeerCount seedOracle id c10State).dnsInvoked = false ∧
    (receiveCheckPeerCount seedOracle id c10State).connects.length = 1 :=
  ⟨by decide, by decide,
   (C10_discovery_iff_pool_below_low seedOracle id c10State
      (by decide) (by decide)).1,
   ((C10_discovery_iff_pool_below_low seedOracle id c10State
      (by decide) (by decide)).2 (by decide)).1,
   by decide⟩

/-- C1 counterexample: one connected peer (non-empty registry, size 1 below
low = 2), yet the trigger sends no re-advertise broadcast at all — the pool
already holds low = 2 addresses, so the discovery call is skipped entirely,
refuting "on every admission trigger with a non-empty registry below low a
re-advertise broadcast is sent". -/
theorem C1_counterexample :
    c1State.peers ≠ [] ∧
    c1State.peers.length < c1State.threshold.low ∧
    (receiveCheckPeerCount emptyOracle id c1State).bootstrapBroadcast = [] ∧
    (receiveCheckPeerCount emptyOracle id c1State).dnsInvoked = false := by
  decide

/-- C1 (amended): on a trigger, DNS resolution runs iff the registry is
empty, its size is below `low` and the pool holds fewer than `low`
addresses; the Bootstrap re-advertise broadcast goes to all connected peers
iff the registry is non-empty and below `low` AND the pool holds fewer than
`low` addresses — otherwise no broadcast is sent. -/
theorem C1_amended_rebroadcast (oracle : DnsOracle)
    (shuffle : List SocketAddr → List SocketAddr) (s : PeerManager) :
    ((receiveCheckPeerCount oracle shuffle s).dnsInvoked = true ↔
      s.peers = [] ∧ s.peers.length < s.threshold.low ∧
        s.potential_peers.length < s.threshold.low) ∧
    ((receiveCheckPeerCount oracle shuffle s).bootstrapBroadcast =
      if s.peers ≠ [] ∧ s.peers.length < s.threshold.low ∧
         s.potential_peers.length < s.threshold.low
      then s.peers.map Prod.fst else []) := by
  by_cases hlow : s.peers.length < s.threshold.low
  · simp only [receiveCheckPeerCount_low oracle shuffle s hlow]
    rw [discoveryStep_dnsInvoked_iff, discoveryStep_broadcast_eq]
    constructor
    · constructor
      · rintro ⟨h1, h2⟩
        exact ⟨h2, hlow, h1⟩
      · rintro ⟨h1, _, h3⟩
        exact ⟨h3, h1⟩
    · by_cases hpool : s.potential_peers.length < s.threshold.low
      · by_cases hpe : s.peers = []
        · simp [hpool, hpe]
        · simp [hpool, hpe, hlow]
      · simp [hpool]
  · unfold receiveCheckPeerCount
    rw [if_neg hlow]
    by_cases hhigh : s.threshold.high < s.peers.length
    · rw [if_pos hhigh]
      simp [hlow]
    · rw [if_neg hhigh]
      simp [hlow]

/-- C6 counterexample: the claimed invariant "the pool holds only addresses
of peers not in the registry" fails under gossip ingestion: with peer uri 0
connected at 10.0.0.1:9732 (per the address assignment `c6AddrOf`) and an
initially disjoint (empty) pool, a gossip batch naming that same address is
merged into the pool unfiltered. -/
theorem C6_counterexample :
    poolRegistryDisjoint c6AddrOf c6State ∧
    ¬ poolRegistryDisjoint c6AddrOf
        (receiveNetworkChannelMsg c6State
          (.PeerMessageReceived [.Advertise ["10.0.0.1:9732".data]])).1 := by
  decide

/-- C6 (amended): gossip ingestion merges every successfully parsed address
into the Candidate Pool with set semantics deduplicating against the pool
only; it never consults the Live Peer Registry — the resulting pool is
determined by the old pool and the batch alone, identically for any registry
contents — so addresses of already-connected peers are not excluded. -/
theorem C6_amended_pool_merge (s : PeerManager) (ids : List RString)
    (peers2 : List (Nat × Nat)) :
    (∀ a, a ∈ (receiveNetworkChannelMsg s
          (.PeerMessageReceived [.Advertise ids])).1.potential_peers ↔
        a ∈ s.potential_peers ∨ a ∈ ids.filterMap parseSocketAddr) ∧
    (receiveNetworkChannelMsg { s with peers := peers2 }
        (.PeerMessageReceived [.Advertise ids])).1.potential_peers =
      (receiveNetworkChannelMsg s
        (.PeerMessageReceived [.Advertise ids])).1.potential_peers ∧
    (s.potential_peers.Nodup →
      (receiveNetworkChannelMsg s
        (.PeerMessageReceived [.Advertise ids])).1.potential_peers.Nodup) :=
  ⟨fun _ => mem_foldl_insertAddr, rfl, fun h => nodup_foldl_insertAddr h⟩

/-- C6 amended-claim witness: concrete gossip into `c6State` keeps the pool
duplicate-free, and ingesting with an emptied registry gives the identical
pool. -/
theorem C6_amended_pool_merge_witness :
    c6State.potential_peers.Nodup ∧
    (receiveNetworkChannelMsg c6State
        (.PeerMessageReceived
          [.Advertise ["10.0.0.1:9732".data]])).1.potential_peers.Nodup ∧
    (receiveNetworkChannelMsg { c6State with peers := [] }
        (.PeerMessageReceived
          [.Advertise ["10.0.0.1:9732".data]])).1.potential_peers =
      (receiveNetworkChannelMsg c6State
        (.PeerMessageReceived
          [.Advertise ["10.0.0.1:9732".data]])).1.potential_peers :=
  ⟨by decide,
   (C6_amended_pool_merge c6State ["10.0.0.1:9732".data] []).2.2 (by decide),
   (C6_amended_pool_merge c6State ["10.0.0.1:9732".data] []).2.1⟩
